import Mathlib

/-!
Verification development for the `tagconfig` package (src/tagconfig.go).

The package walks a struct via reflection, resolving a lookup key per field
from a struct tag, querying a pluggable key-value source (`TagValueGetter`),
applying a default/required policy, and coercing the raw string into the
typed field (`Process`).  The inverse direction (`PopulateExternalSource`)
walks the struct and pushes each tagged field value into a `TagValueSetter`.

The shallow embedding below mirrors the Go source:
  * `GoType` / `GoValue` model the reflect-level type and value trees that the
    package inspects (only the kinds the package dispatches on are relevant).
  * `FieldMeta` models the parts of `reflect.StructField` that the package
    reads: name, `Anonymous`, exportedness (which decides `CanSet` for a
    field reached through a pointer), and the struct tags.
  * The parsing helpers model the Go standard library functions the source
    calls (`strconv.ParseInt`/`ParseUint`/`ParseBool`/`ParseFloat`,
    `time.ParseDuration`, `strings.Split` with separator ",").
  * `Process`, `processField` and `PopulateExternalSource` are direct
    translations of the functions of the same names in src/tagconfig.go.
    Calls to the external collaborator (`Get` of the source, `Set` of the
    sink) are additionally recorded in a call log, so that claims of the
    form "no lookup happens for this field" are expressible.
-/

/-- Part of `reflect.StructField` that src/tagconfig.go reads: the field
name, the `Anonymous` flag, whether the field is exported (an addressable
field is settable via `CanSet` exactly when it is exported, and
`Interface()` panics on unexported fields), and the struct tags as an
association list. -/
structure FieldMeta where
  name : String
  anonymous : Bool
  exported : Bool
  tags : List (String × String)
deriving DecidableEq, Repr

/-- Signed integer kinds of Go (`reflect.Int` .. `reflect.Int64`).  `int` is
modelled as the 64-bit platform variant used by the tests. -/
inductive IntKind : Type where
  | i | i8 | i16 | i32 | i64
deriving DecidableEq, Repr

/-- Unsigned integer kinds of Go (`reflect.Uint` .. `reflect.Uint64`). -/
inductive UintKind : Type where
  | u | u8 | u16 | u32 | u64
deriving DecidableEq, Repr

/-- Bit width reported by `reflect.Type.Bits()` for a signed integer kind. -/
def intBits : IntKind → Nat
  | .i => 64
  | .i8 => 8
  | .i16 => 16
  | .i32 => 32
  | .i64 => 64

/-- Bit width reported by `reflect.Type.Bits()` for an unsigned integer
kind. -/
def uintBits : UintKind → Nat
  | .u => 64
  | .u8 => 8
  | .u16 => 16
  | .u32 => 32
  | .u64 => 64

/-- Types as the package sees them through reflect: string, the signed
integer family (carrying `PkgPath` and `Name` of the declared type, which the
source inspects to recognise `time.Duration`), the unsigned family, bool,
floats, slices, pointers, structs (a list of fields, each a `FieldMeta`
paired with its type), and a catch-all `other` for every kind the package
never dispatches on (map, chan, func, interface, array, complex, uintptr). -/
inductive GoType : Type where
  | str : GoType
  | intT (k : IntKind) (pkgPath tname : String) : GoType
  | uintT (k : UintKind) : GoType
  | boolT : GoType
  | floatT (bits : Nat) : GoType
  | slice (elem : GoType) : GoType
  | ptr (elem : GoType) : GoType
  | strukt (fields : List (FieldMeta × GoType)) : GoType
  | other (kindName : String) : GoType
deriving Repr

/-- Runtime values, mirroring the kinds of `GoType`.  Float values are
represented by their accepted literal, since no behaviour of the package
depends on float arithmetic.  A value of an `other`-kind type is the opaque
`zero` marker. -/
inductive GoValue : Type where
  | str (s : String) : GoValue
  | int (n : Int) : GoValue
  | uint (n : Nat) : GoValue
  | bool (b : Bool) : GoValue
  | float (lit : String) : GoValue
  | slice (elems : List GoValue) : GoValue
  | ptr (v : Option GoValue) : GoValue
  | strukt (fields : List GoValue) : GoValue
  | zero (kindName : String) : GoValue
deriving Repr

/-- A struct field as handed to the collaborators: metadata plus type. -/
abbrev StructField := FieldMeta × GoType

/-- Reads a tag value, modelling `reflect.StructTag.Get`: the value under a
key, or the empty string when the key is absent. -/
def tagGet (tags : List (String × String)) (key : String) : String :=
  match tags.find? (fun p => p.1 = key) with
  | some p => p.2
  | none => ""

/-- Whether a type has struct kind (`reflect.Value.Kind() == reflect.Struct`). -/
def isStructType : GoType → Bool
  | .strukt _ => true
  | _ => false

mutual

/-- Zero value of a type, as produced by `reflect.New` / `reflect.MakeSlice`. -/
def zeroValue : GoType → GoValue
  | .str => .str ""
  | .intT _ _ _ => .int 0
  | .uintT _ => .uint 0
  | .boolT => .bool false
  | .floatT _ => .float "0"
  | .slice _ => .slice []
  | .ptr _ => .ptr none
  | .strukt fs => .strukt (zeroFields fs)
  | .other k => .zero k
termination_by t => sizeOf t

/-- Zero values of a field list (helper of `zeroValue`). -/
def zeroFields : List (FieldMeta × GoType) → List GoValue
  | [] => []
  | f :: fs => zeroValue f.2 :: zeroFields fs
termination_by fs => sizeOf fs
decreasing_by
  all_goals simp_wf
  all_goals (first | (obtain ⟨a, b⟩ := f; simp; omega) | omega)

end

/-- Numeric value of a digit character in bases up to 36, or `none`. -/
def digitVal (c : Char) : Option Nat :=
  if '0' ≤ c ∧ c ≤ '9' then some (c.toNat - '0'.toNat)
  else if 'a' ≤ c ∧ c ≤ 'z' then some (c.toNat - 'a'.toNat + 10)
  else if 'A' ≤ c ∧ c ≤ 'Z' then some (c.toNat - 'A'.toNat + 10)
  else none

/-- Accumulates digits in the given base; fails on a non-digit. -/
def parseDigitsAux (base : Nat) (acc : Nat) : List Char → Option Nat
  | [] => some acc
  | c :: cs =>
    match digitVal c with
    | some d => if d < base then parseDigitsAux base (acc * base + d) cs else none
    | none => none

/-- Parses a non-empty digit string in the given base. -/
def parseDigits (base : Nat) (cs : List Char) : Option Nat :=
  if cs.isEmpty then none else parseDigitsAux base 0 cs

/-- Base detection of `strconv.ParseInt`/`ParseUint` with `base == 0`:
`0x`/`0X` hex, `0b`/`0B` binary, `0o`/`0O` octal, a leading `0` octal,
decimal otherwise.  (Underscore digit separators, accepted by Go in base 0,
are omitted from the model; no claim involves them.) -/
def parseUintCore : List Char → Option Nat
  | '0' :: 'x' :: rest => parseDigits 16 rest
  | '0' :: 'X' :: rest => parseDigits 16 rest
  | '0' :: 'o' :: rest => parseDigits 8 rest
  | '0' :: 'O' :: rest => parseDigits 8 rest
  | '0' :: 'b' :: rest => parseDigits 2 rest
  | '0' :: 'B' :: rest => parseDigits 2 rest
  | '0' :: rest => if rest.isEmpty then some 0 else parseDigits 8 rest
  | cs => parseDigits 10 cs

/-- Model of `strconv.ParseUint(s, 0, bits)`: no sign permitted, base
detection, range check against the bit width. -/
def parseUint (s : String) (bits : Nat) : Option Nat :=
  match parseUintCore s.data with
  | some n => if n < 2 ^ bits then some n else none
  | none => none

/-- Model of `strconv.ParseInt(s, 0, bits)`: optional sign, base detection,
range check against the signed range of the bit width. -/
def parseInt (s : String) (bits : Nat) : Option Int :=
  let signed : Bool × List Char :=
    match s.data with
    | '+' :: cs => (false, cs)
    | '-' :: cs => (true, cs)
    | cs => (false, cs)
  match parseUintCore signed.2 with
  | some n =>
    let v : Int := if signed.1 then -(n : Int) else (n : Int)
    if -(2 ^ (bits - 1) : Int) ≤ v ∧ v ≤ (2 ^ (bits - 1) : Int) - 1 then some v else none
  | none => none

/-- Model of `strconv.ParseBool`: the accepted literals. -/
def parseBool : String → Option Bool
  | "1" => some true
  | "t" => some true
  | "T" => some true
  | "true" => some true
  | "TRUE" => some true
  | "True" => some true
  | "0" => some false
  | "f" => some false
  | "F" => some false
  | "false" => some false
  | "FALSE" => some false
  | "False" => some false
  | _ => none

/-- Splits off the leading run of decimal digits. -/
def takeDigits : List Char → List Char × List Char
  | [] => ([], [])
  | c :: cs =>
    if '0' ≤ c ∧ c ≤ '9' then
      let r := takeDigits cs
      (c :: r.1, r.2)
    else ([], c :: cs)

/-- Mantissa of a decimal float literal: `digits`, `digits.digits` or
`.digits`; returns the remainder, requiring at least one digit. -/
def floatMantissa (cs : List Char) : Option (List Char) :=
  let d1 := takeDigits cs
  match d1.2 with
  | '.' :: r2 =>
    let d2 := takeDigits r2
    if d1.1.isEmpty ∧ d2.1.isEmpty then none else some d2.2
  | _ => if d1.1.isEmpty then none else some d1.2

/-- Whether the remainder after the mantissa is empty or a valid exponent
part `(e|E)[sign]digits`. -/
def floatExponentOk : List Char → Bool
  | [] => true
  | 'e' :: r =>
    (let r' := match r with
      | '+' :: t => t
      | '-' :: t => t
      | t => t
     let d := takeDigits r'
     !d.1.isEmpty && d.2.isEmpty)
  | 'E' :: r =>
    (let r' := match r with
      | '+' :: t => t
      | '-' :: t => t
      | t => t
     let d := takeDigits r'
     !d.1.isEmpty && d.2.isEmpty)
  | _ => false

/-- Model of `strconv.ParseFloat(s, bits)` at the level of syntactic
acceptance: optional sign, then `inf`/`infinity`/`nan` (case-insensitive) or
a decimal mantissa with optional exponent.  (Hex float literals are omitted
from the model; no claim involves them.)  The accepted literal itself is the
represented value. -/
def parseFloat (s : String) (_bits : Nat) : Option String :=
  let body : List Char :=
    match s.data with
    | '+' :: t => t
    | '-' :: t => t
    | t => t
  let lower := body.map Char.toLower
  if lower = "inf".data ∨ lower = "infinity".data ∨ lower = "nan".data then some s
  else
    match floatMantissa body with
    | some r => if floatExponentOk r then some s else none
    | none => none

/-- Nanosecond multiplier of a duration unit, per `time.ParseDuration`. -/
def durUnitMul (u : List Char) : Option Int :=
  if u = "ns".data then some 1
  else if u = "us".data then some 1000
  else if u = "µs".data then some 1000
  else if u = "μs".data then some 1000
  else if u = "ms".data then some 1000000
  else if u = "s".data then some 1000000000
  else if u = "m".data then some 60000000000
  else if u = "h".data then some 3600000000000
  else none

/-- Splits off the leading unit name: the run of characters that are neither
decimal digits nor `.` (the scan `time.ParseDuration` uses). -/
def takeUnit : List Char → List Char × List Char
  | [] => ([], [])
  | c :: cs =>
    if c = '.' ∨ ('0' ≤ c ∧ c ≤ '9') then ([], c :: cs)
    else
      let r := takeUnit cs
      (c :: r.1, r.2)

/-- Natural number denoted by a digit list (base 10). -/
def digitsToNat (ds : List Char) : Nat :=
  ds.foldl (fun a c => a * 10 + (c.toNat - '0'.toNat)) 0

/-- Loop of `time.ParseDuration`: one or more `number[.fraction]unit`
groups, summed.  The fuel argument (initialised to the input length plus
one) only bounds the recursion; every iteration consumes at least one
character, so it never runs out on the inputs reached from `parseDuration`.
Fractional parts are combined with integer arithmetic (Go uses a float
product; no claim involves fractional durations). -/
def parseDurParts (fuel : Nat) (cs : List Char) : Option Int :=
  match fuel with
  | 0 => none
  | fuel + 1 =>
    if cs.isEmpty then none
    else
      let ip := takeDigits cs
      let fp : List Char × List Char :=
        match ip.2 with
        | '.' :: t => takeDigits t
        | r => ([], r)
      if ip.1.isEmpty ∧ fp.1.isEmpty then none
      else
        let u := takeUnit fp.2
        match durUnitMul u.1 with
        | none => none
        | some mul =>
          let part : Int :=
            (digitsToNat ip.1 : Int) * mul +
              ((digitsToNat fp.1 : Int) * mul) / ((10 : Int) ^ fp.1.length)
          if u.2.isEmpty then some part
          else
            match parseDurParts fuel u.2 with
            | some rest => some (part + rest)
            | none => none

/-- Model of `time.ParseDuration`: optional sign, the special case `"0"`,
then one or more `number[.fraction]unit` groups.  The result is the signed
nanosecond count (the `int64` the source stores via `SetInt`). -/
def parseDuration (s : String) : Option Int :=
  let signed : Bool × List Char :=
    match s.data with
    | '+' :: cs => (false, cs)
    | '-' :: cs => (true, cs)
    | cs => (false, cs)
  if signed.2 = "0".data then some 0
  else
    match parseDurParts (signed.2.length + 1) signed.2 with
    | some n => some (if signed.1 then -n else n)
    | none => none

/-- Model of `strings.Split(s, ",")` on the character list of `s`. -/
def splitCommaAux : List Char → List (List Char)
  | [] => [[]]
  | c :: rest =>
    if c = ',' then [] :: splitCommaAux rest
    else
      match splitCommaAux rest with
      | g :: gs => (c :: g) :: gs
      | [] => [[c]]

/-- Model of `strings.Split(s, ",")`. -/
def splitComma (s : String) : List String :=
  (splitCommaAux s.data).map fun cs => ⟨cs⟩

/-- Model of `reflect.Type.String()` for the types of the embedding, used
for the `TypeName` of a `ParseError`.  Named types render as
`pkg.Name` with the last path component of the package path. -/
def typeString : GoType → String
  | .str => "string"
  | .intT k pkg nm =>
    if nm = "" then
      match k with
      | .i => "int"
      | .i8 => "int8"
      | .i16 => "int16"
      | .i32 => "int32"
      | .i64 => "int64"
    else if pkg = "" then nm
    else ((pkg.splitOn "/").getLastD pkg) ++ "." ++ nm
  | .uintT k =>
    match k with
    | .u => "uint"
    | .u8 => "uint8"
    | .u16 => "uint16"
    | .u32 => "uint32"
    | .u64 => "uint64"
  | .boolT => "bool"
  | .floatT bits => if bits = 32 then "float32" else "float64"
  | .slice e => "[]" ++ typeString e
  | .ptr e => "*" ++ typeString e
  | .strukt _ => "struct"
  | .other k => k

/-- Environment of custom decoders, modelling `decoderFrom`: the source
checks whether the field value (or a pointer to it) implements the
`Decoder` interface, which is a property of the declared field type.  A
decoder consumes the raw string and the current value and either yields the
new value or fails (`Decode` returning a non-nil error). -/
abbrev DecoderEnv := GoType → Option (String → GoValue → Option GoValue)

/-- Environment in which no field type implements `Decoder`. -/
def noDecoders : DecoderEnv := fun _ => none

/-- Outcome of `processField`, modelling in-place mutation plus the error
return: `err` is whether a non-nil error was returned, `val` is the content
of the field afterwards (on an error path, whatever the partial mutations
left behind, e.g. an allocated pointer). -/
structure FieldResult where
  err : Bool
  val : GoValue
deriving Repr

mutual

/-- Translation of `processField` (src/tagconfig.go lines 126-193): custom
decoder first; one level of pointer indirection is unwrapped, allocating a
zero pointee when the pointer is nil; then the kind switch. -/
def processField (dec : DecoderEnv) (value : String) (typ : GoType) (cur : GoValue) :
    FieldResult :=
  match dec typ with
  | some d =>
    match d value cur with
    | some v' => ⟨false, v'⟩
    | none => ⟨true, cur⟩
  | none =>
    match typ with
    | .ptr elemT =>
      -- typ = typ.Elem(); if field.IsNil() field.Set(reflect.New(typ)); field = field.Elem()
      let start :=
        match cur with
        | .ptr (some pv) => pv
        | _ => zeroValue elemT
      let r := coerceSwitch dec value elemT start
      ⟨r.err, .ptr (some r.val)⟩
    | t => coerceSwitch dec value t cur
termination_by (sizeOf typ, 1, 0)

/-- The kind switch of `processField` (src/tagconfig.go lines 142-190),
after the decoder check and pointer unwrap. -/
def coerceSwitch (dec : DecoderEnv) (value : String) (typ : GoType) (cur : GoValue) :
    FieldResult :=
  match typ with
  | .str => ⟨false, .str value⟩
  | .intT k pkg nm =>
    -- special case: Kind Int64 with named type time.Duration parses as a duration
    (match (if k = IntKind.i64 ∧ pkg = "time" ∧ nm = "Duration" then parseDuration value
            else parseInt value (intBits k)) with
     | some z => ⟨false, .int z⟩
     | none => ⟨true, cur⟩)
  | .uintT k =>
    (match parseUint value (uintBits k) with
     | some n => ⟨false, .uint n⟩
     | none => ⟨true, cur⟩)
  | .boolT =>
    (match parseBool value with
     | some b => ⟨false, .bool b⟩
     | none => ⟨true, cur⟩)
  | .floatT bits =>
    (match parseFloat value bits with
     | some lit => ⟨false, .float lit⟩
     | none => ⟨true, cur⟩)
  | .slice elemT =>
    -- vals := strings.Split(value, ","); sl := reflect.MakeSlice(typ, len, len);
    -- each element processed recursively; field.Set(sl) only after the loop
    (match coerceElems dec elemT (splitComma value) with
     | some vs => ⟨false, .slice vs⟩
     | none => ⟨true, cur⟩)
  | _ => ⟨false, cur⟩
termination_by (sizeOf typ, 0, 0)

/-- Element loop of the slice case: each piece is processed by a full
recursive `processField` call against a zero element; the first failing
element aborts. -/
def coerceElems (dec : DecoderEnv) (elemT : GoType) : List String → Option (List GoValue)
  | [] => some []
  | p :: ps =>
    let r := processField dec p elemT (zeroValue elemT)
    if r.err then none
    else
      match coerceElems dec elemT ps with
      | some vs => some (r.val :: vs)
      | none => none
termination_by ps => (sizeOf elemT, 2, ps.length)

end

/-- Errors returned by `Process`: the fixed `ErrInvalidSpecification`, the
formatted "required key %s missing value" error, and `ParseError` with its
three fields (src/tagconfig.go lines 21-25; note the source stores the
lookup key in the `FieldName` slot). -/
inductive ProcErr : Type where
  | invalidSpecification : ProcErr
  | requiredMissing (key : String) : ProcErr
  | parseError (fieldName typeName value : String) : ProcErr
deriving DecidableEq, Repr

/-- The `TagValueGetter` collaborator: a tag name and a lookup returning a
string (empty means absent). -/
structure TagValueGetter where
  tagName : String
  get : String → StructField → String

/-- One recorded call to `Get` of the source: the key and the field passed. -/
abbrev GetCall := String × StructField

mutual

/-- Translation of `Process` (src/tagconfig.go lines 59-117).  The first
component of the result records every `Get` call issued, in order; the
second is the returned error or the updated record (the new pointee written
through the supplied pointer). -/
def Process (dec : DecoderEnv) (v : TagValueGetter) (specT : GoType) (specV : GoValue) :
    List GetCall × Except ProcErr GoValue :=
  match specT, specV with
  | .ptr (.strukt fs), .ptr (some (.strukt vs)) =>
    (match processFields dec v fs vs with
     | (log, .ok vs') => (log, .ok (.ptr (some (.strukt vs'))))
     | (log, .error e) => (log, .error e))
  | _, _ => ([], .error .invalidSpecification)
termination_by sizeOf specT

/-- The field loop of `Process` (src/tagconfig.go lines 70-115), walking
fields in declaration order and stopping at the first error. -/
def processFields (dec : DecoderEnv) (v : TagValueGetter) :
    List StructField → List GoValue → List GetCall × Except ProcErr (List GoValue)
  | [], _ => ([], .ok [])
  | _ :: _, [] => ([], .ok [])
  | f :: fs, x :: xs =>
    (match procStep dec v f x with
     | (log1, .error e) => (log1, .error e)
     | (log1, .ok x') =>
       (match processFields dec v fs xs with
        | (log2, .ok xs') => (log1 ++ log2, .ok (x' :: xs'))
        | (log2, .error e) => (log1 ++ log2, .error e)))
termination_by fs _ => sizeOf fs

/-- The loop body of `Process` for a single field (src/tagconfig.go lines
71-114): skip unsettable or ignored fields; recurse into anonymous
struct-kind fields; resolve the key; call `Get`; apply the
default/required policy; coerce via `processField`, wrapping a failure into
a `ParseError` carrying the key, the type string and the raw value. -/
def procStep (dec : DecoderEnv) (v : TagValueGetter) (f : StructField) (x : GoValue) :
    List GetCall × Except ProcErr GoValue :=
  -- if !f.CanSet() || typeOfSpec.Field(i).Tag.Get("ignored") == "true" { continue }
  if f.1.exported = false ∨ tagGet f.1.tags "ignored" = "true" then ([], .ok x)
  else
    let emb : List GetCall × Except ProcErr GoValue :=
      if f.1.anonymous = true ∧ isStructType f.2 = true then
        -- embeddedPtr := f.Addr().Interface(); Process(v, embeddedPtr); f.Set(...)
        match Process dec v (.ptr f.2) (.ptr (some x)) with
        | (log, .error e) => (log, .error e)
        | (log, .ok (.ptr (some x1))) => (log, .ok x1)
        | (log, .ok _) => (log, .ok x)
      else ([], .ok x)
    match emb with
    | (log0, .error e) => (log0, .error e)
    | (log0, .ok x1) =>
      let key := tagGet f.1.tags v.tagName
      if key = "" then (log0, .ok x1)
      else
        let value0 := v.get key f
        let d := tagGet f.1.tags "default"
        let value := if d ≠ "" ∧ value0 = "" then d else value0
        if value = "" ∧ d = "" then
          if tagGet f.1.tags "required" = "true" then
            (log0 ++ [(key, f)], .error (.requiredMissing key))
          else (log0 ++ [(key, f)], .ok x1)
        else
          let r := processField dec value f.2 x1
          if r.err = true then
            (log0 ++ [(key, f)], .error (.parseError key (typeString f.2) value))
          else (log0 ++ [(key, f)], .ok r.val)
termination_by sizeOf f
decreasing_by
  all_goals simp_wf
  all_goals (obtain ⟨⟨nm, an, ex, tg⟩, b⟩ := f; simp)
  all_goals omega

end

/-- Errors arising from `PopulateExternalSource`: the fixed
`ErrInvalidSpecification`, a panic (the reflect `Interface()` call on a value
obtained from an unexported field panics), and an error returned by `Set`
of the sink, propagated verbatim. -/
inductive PopErr : Type where
  | invalidSpecification : PopErr
  | panicked : PopErr
  | sinkError (msg : String) : PopErr
deriving DecidableEq, Repr

/-- The `TagValueSetter` collaborator: a tag name and a `Set` operation that
may fail with an error (modelled as `some msg`). -/
structure TagValueSetter where
  tagName : String
  set : String → GoValue → StructField → Option String

/-- One recorded call to `Set` of the sink: key, boxed value and field. -/
abbrev SetCall := String × GoValue × StructField

mutual

/-- Translation of `PopulateExternalSource` (src/tagconfig.go lines
222-256).  The first component records every `Set` call issued, in order. -/
def PopulateExternalSource (w : TagValueSetter) (specT : GoType) (specV : GoValue) :
    List SetCall × Except PopErr Unit :=
  match specT, specV with
  | .ptr (.strukt fs), .ptr (some (.strukt vs)) => populateFields w fs vs
  | _, _ => ([], .error .invalidSpecification)
termination_by sizeOf specT

/-- The field loop of `PopulateExternalSource` (src/tagconfig.go lines
235-253), stopping at the first error. -/
def populateFields (w : TagValueSetter) :
    List StructField → List GoValue → List SetCall × Except PopErr Unit
  | [], _ => ([], .ok ())
  | _ :: _, [] => ([], .ok ())
  | f :: fs, x :: xs =>
    (match popStep w f x with
     | (log1, .error e) => (log1, .error e)
     | (log1, .ok _) =>
       let rest := populateFields w fs xs
       (log1 ++ rest.1, rest.2))
termination_by fs _ => sizeOf fs

/-- The loop body of `PopulateExternalSource` for a single field
(src/tagconfig.go lines 236-252).  Anonymous struct-kind fields are
recursed into (with no settable/ignored check anywhere); every other field
with a non-empty tag value is pushed to `Set`.  `f.Interface()` and
`f.Addr().Interface()` panic on an unexported field. -/
def popStep (w : TagValueSetter) (f : StructField) (x : GoValue) :
    List SetCall × Except PopErr Unit :=
  if f.1.anonymous = true ∧ isStructType f.2 = true then
    if f.1.exported = false then ([], .error .panicked)
    else PopulateExternalSource w (.ptr f.2) (.ptr (some x))
  else
    let t := tagGet f.1.tags w.tagName
    if t = "" then ([], .ok ())
    else if f.1.exported = false then ([], .error .panicked)
    else
      match w.set t x f with
      | none => ([(t, x, f)], .ok ())
      | some msg => ([(t, x, f)], .error (.sinkError msg))
termination_by sizeOf f
decreasing_by
  all_goals simp_wf
  all_goals (obtain ⟨⟨nm, an, ex, tg⟩, b⟩ := f; simp)
  all_goals omega

end

/-- The entry guard of both `Process` and `PopulateExternalSource`: the
supplied specification must be a non-nil pointer to a struct
(src/tagconfig.go lines 62-68 and 225-232). -/
def isPtrToStructSpec : GoType → GoValue → Bool
  | .ptr (.strukt _), .ptr (some (.strukt _)) => true
  | _, _ => false

/-- C2: whenever the supplied value is not a pointer, or is a (possibly nil)
pointer whose pointee is not a struct, both `Process` and
`PopulateExternalSource` return the fixed invalid-specification error with
an empty call log: no `Get` lookup, no `Set` call, and no updated record is
produced. -/
theorem c2_invalid_specification (dec : DecoderEnv) (v : TagValueGetter)
    (w : TagValueSetter) (specT : GoType) (specV : GoValue)
    (h : isPtrToStructSpec specT specV = false) :
    Process dec v specT specV = ([], .error .invalidSpecification) ∧
    PopulateExternalSource w specT specV = ([], .error .invalidSpecification) := by
  constructor
  · rw [Process.eq_def]
    split
    · simp [isPtrToStructSpec] at h
    · rfl
  · rw [PopulateExternalSource.eq_def]
    split
    · simp [isPtrToStructSpec] at h
    · rfl

/-- Witness for C2 at a concrete input: a plain string specification. -/
theorem c2_invalid_specification_witness :
    isPtrToStructSpec .str (.str "what do you think this is?") = false ∧
    Process noDecoders ⟨"tag", fun _ _ => ""⟩ .str (.str "what do you think this is?") =
      ([], .error .invalidSpecification) ∧
    PopulateExternalSource ⟨"tag", fun _ _ _ => none⟩ .str (.str "what do you think this is?") =
      ([], .error .invalidSpecification) := by
  refine ⟨rfl, ?_⟩
  exact c2_invalid_specification noDecoders ⟨"tag", fun _ _ => ""⟩
    ⟨"tag", fun _ _ _ => none⟩ .str (.str "what do you think this is?") rfl

/-- C8: for a signed-integer-family field without a custom decoder, the
coercer parses the raw string as a base-detected integer sized to the bit
width of the field, except that a signed 64-bit field whose named type is
`time.Duration` is parsed as a duration literal, the signed nanosecond
count being stored. -/
theorem c8_int_duration (dec : DecoderEnv) (value : String) (cur : GoValue)
    (k : IntKind) (pkg nm : String)
    (hd : dec (.intT k pkg nm) = none) :
    processField dec value (.intT k pkg nm) cur =
      (match (if k = IntKind.i64 ∧ pkg = "time" ∧ nm = "Duration" then parseDuration value
              else parseInt value (intBits k)) with
       | some z => ⟨false, .int z⟩
       | none => ⟨true, cur⟩) := by
  simp only [processField, hd, coerceSwitch]

/-- Witness for C8: a duration literal on a `time.Duration` field, and a
base-detected hex literal on a plain `int` field. -/
theorem c8_int_duration_witness :
    processField noDecoders "1h30m" (.intT .i64 "time" "Duration") (.int 0) =
      ⟨false, .int 5400000000000⟩ ∧
    processField noDecoders "5s" (.intT .i64 "time" "Duration") (.int 0) =
      ⟨false, .int 5000000000⟩ ∧
    processField noDecoders "0x10" (.intT .i "" "") (.int 7) = ⟨false, .int 16⟩ := by
  refine ⟨?_, ?_, ?_⟩ <;>
    rw [c8_int_duration noDecoders _ _ _ _ _ rfl] <;> rfl

/-- Kinds with no case in the switch of `processField` and no pointer
unwrap: struct and the `other` kinds (map, chan, func, interface, array,
complex, uintptr). -/
def unsupportedKind : GoType → Bool
  | .strukt _ => true
  | .other _ => true
  | _ => false

/-- C9 (amended): for a field whose kind has no case in the coercion switch
and is not a pointer (struct, map, chan, ...), with no custom decoder,
coercion is a silent no-op: the value is unchanged and no error is
returned.  (A pointer-kind field is instead unwrapped: a nil pointer is
allocated and the pointee kind dispatched on, so such a field is not left
unchanged in general; see the counterexample.) -/
theorem c9_unsupported_noop (dec : DecoderEnv) (value : String) (typ : GoType)
    (cur : GoValue) (hk : unsupportedKind typ = true) (hd : dec typ = none) :
    processField dec value typ cur = ⟨false, cur⟩ := by
  cases typ <;> simp [unsupportedKind] at hk <;>
    simp [processField, hd, coerceSwitch]

/-- Witness for C9 (amended): a struct-kind field and a map-kind field are
left untouched without error. -/
theorem c9_unsupported_noop_witness :
    processField noDecoders "x" (.strukt []) (.strukt [.int 3]) = ⟨false, .strukt [.int 3]⟩ ∧
    processField noDecoders "x" (.other "map[string]string") (.zero "map[string]string") =
      ⟨false, .zero "map[string]string"⟩ := by
  constructor
  · exact c9_unsupported_noop noDecoders "x" (.strukt []) (.strukt [.int 3]) rfl rfl
  · exact c9_unsupported_noop noDecoders "x" (.other "map[string]string")
      (.zero "map[string]string") rfl rfl

/-- Counterexample for C9 as stated: a pointer field has a kind outside the
supported list (string, signed/unsigned integer, bool, float, slice), has no
decoder, and yet coercion is not a no-op: a nil `*string` field becomes an
allocated pointer to the coerced string. -/
theorem c9_counterexample :
    unsupportedKind (.ptr .str) = false ∧
    isStructType (.ptr .str) = false ∧
    processField noDecoders "x" (.ptr .str) (.ptr none) = ⟨false, .ptr (some (.str "x"))⟩ ∧
    GoValue.ptr (some (.str "x")) ≠ .ptr none := by
  refine ⟨rfl, rfl, ?_, by simp⟩
  simp [processField, coerceSwitch, zeroValue, noDecoders]

/-- C5: for a slice-typed field without a custom decoder, the coercer splits
the raw string on "," (no escaping), coerces each piece recursively as an
element (each starting from a zero element, as `reflect.MakeSlice`
produces), assigns on success a freshly built sequence whose length equals
the number of pieces, and on any element failure returns an error leaving
the field at its prior value. -/
theorem c5_slice_split_coercion (dec : DecoderEnv) (e : GoType) (value : String)
    (cur : GoValue) (hd : dec (.slice e) = none) :
    (processField dec value (.slice e) cur =
       (match coerceElems dec e (splitComma value) with
        | some vs => ⟨false, .slice vs⟩
        | none => ⟨true, cur⟩)) ∧
    (∀ ps : List String,
       coerceElems dec e ps =
         (if ps.all (fun p => !(processField dec p e (zeroValue e)).err) then
            some (ps.map (fun p => (processField dec p e (zeroValue e)).val))
          else none)) ∧
    (∀ vs, coerceElems dec e (splitComma value) = some vs →
       vs.length = (splitComma value).length) := by
  have hb : ∀ ps : List String,
      coerceElems dec e ps =
        (if ps.all (fun p => !(processField dec p e (zeroValue e)).err) then
           some (ps.map (fun p => (processField dec p e (zeroValue e)).val))
         else none) := by
    intro ps
    induction ps with
    | nil => simp [coerceElems]
    | cons p ps ih =>
      by_cases hp : (processField dec p e (zeroValue e)).err = true
      · simp [coerceElems, hp]
      · by_cases hall : ps.all (fun q => !(processField dec q e (zeroValue e)).err) = true
        · simp [coerceElems, hp, ih, hall]
        · simp [coerceElems, hp, ih, hall]
  refine ⟨?_, hb, ?_⟩
  · simp only [processField, hd, coerceSwitch]
  · intro vs hvs
    rw [hb] at hvs
    by_cases hall :
        (splitComma value).all (fun q => !(processField dec q e (zeroValue e)).err) = true
    · rw [if_pos hall] at hvs
      cases hvs
      simp
    · rw [if_neg hall] at hvs
      cases hvs

/-- Witness for C5: integer elements; "1,2,3" yields a length-3 sequence,
"1,x,3" fails and leaves the prior value in place. -/
theorem c5_slice_split_coercion_witness :
    processField noDecoders "1,2,3" (.slice (.intT .i "" "")) (.slice []) =
      ⟨false, .slice [.int 1, .int 2, .int 3]⟩ ∧
    processField noDecoders "1,x,3" (.slice (.intT .i "" "")) (.slice [.int 9]) =
      ⟨true, .slice [.int 9]⟩ := by
  constructor
  · rw [(c5_slice_split_coercion noDecoders (.intT .i "" "") "1,2,3" (.slice []) rfl).1]
    simp [coerceElems, processField, coerceSwitch, splitComma, splitCommaAux, zeroValue,
      parseInt, parseUintCore, parseDigits, parseDigitsAux, digitVal, intBits, noDecoders]
  · rw [(c5_slice_split_coercion noDecoders (.intT .i "" "") "1,x,3" (.slice [.int 9]) rfl).1]
    simp [coerceElems, processField, coerceSwitch, splitComma, splitCommaAux, zeroValue,
      parseInt, parseUintCore, parseDigits, parseDigitsAux, digitVal, intBits, noDecoders]

/-- C1: for a settable, non-ignored, non-embedded field with a non-empty
lookup key, the loop body of `Process` applies the default/required policy
exactly as specified: a non-empty `Get` result is coerced and assigned; an
empty result with a non-empty `default` annotation coerces the default
instead; both empty with `required` equal to "true" fails naming the
offending key; otherwise the field is left unchanged and the step succeeds,
so traversal continues.  A coercion failure surfaces as a `ParseError`. -/
theorem c1_default_required_policy (dec : DecoderEnv) (v : TagValueGetter)
    (f : StructField) (x : GoValue)
    (hset : f.1.exported = true)
    (hig : tagGet f.1.tags "ignored" ≠ "true")
    (hanon : f.1.anonymous = true ∧ isStructType f.2 = true → False)
    (hkey : tagGet f.1.tags v.tagName ≠ "") :
    procStep dec v f x =
      (let key := tagGet f.1.tags v.tagName
       let value0 := v.get key f
       let d := tagGet f.1.tags "default"
       if value0 ≠ "" then
         (if (processField dec value0 f.2 x).err = true then
            ([(key, f)], .error (.parseError key (typeString f.2) value0))
          else ([(key, f)], .ok (processField dec value0 f.2 x).val))
       else if d ≠ "" then
         (if (processField dec d f.2 x).err = true then
            ([(key, f)], .error (.parseError key (typeString f.2) d))
          else ([(key, f)], .ok (processField dec d f.2 x).val))
       else if tagGet f.1.tags "required" = "true" then
         ([(key, f)], .error (.requiredMissing key))
       else ([(key, f)], .ok x)) := by
  have h1 : ¬ (f.1.exported = false ∨ tagGet f.1.tags "ignored" = "true") := by
    simp [hset]
    exact hig
  rw [procStep, if_neg h1, if_neg hanon]
  by_cases hv : v.get (tagGet f.1.tags v.tagName) f = ""
  · by_cases hdef : tagGet f.1.tags "default" = ""
    · by_cases hreq : tagGet f.1.tags "required" = "true"
      · simp [hv, hdef, hreq, hkey]
      · simp [hv, hdef, hreq, hkey]
    · simp [hv, hdef, hkey]
  · by_cases hdef : tagGet f.1.tags "default" = ""
    · simp [hv, hdef, hkey]
    · simp [hv, hdef, hkey]

/-- Field mirroring `SystemsCrashCount` of the test `Specification`: an
`int` field, required, tagged "crash.count". -/
def wFReq : StructField :=
  (⟨"SystemsCrashCount", false, true, [("emaNgaT", "crash.count"), ("required", "true")]⟩,
    .intT .i "" "")

/-- Field mirroring `Handle` of the test `Specification`: a string field
with a default, tagged "handle". -/
def wFDef : StructField :=
  (⟨"Handle", false, true, [("emaNgaT", "handle"), ("default", "zero.cool")]⟩, .str)

/-- A source with no values at all. -/
def emptyGetter : TagValueGetter := ⟨"emaNgaT", fun _ _ => ""⟩

/-- A source holding only "crash.count" = "1507". -/
def crashGetter : TagValueGetter :=
  ⟨"emaNgaT", fun k _ => if k = "crash.count" then "1507" else ""⟩

/-- Witness for C1: the three policy rows at concrete fields — a present
value is coerced and used, a missing required value fails naming the key,
and a missing value with a default coerces the default. -/
theorem c1_default_required_policy_witness :
    procStep noDecoders crashGetter wFReq (.int 0) =
      ([("crash.count", wFReq)], .ok (.int 1507)) ∧
    procStep noDecoders emptyGetter wFReq (.int 0) =
      ([("crash.count", wFReq)], .error (.requiredMissing "crash.count")) ∧
    procStep noDecoders emptyGetter wFDef (.str "") =
      ([("handle", wFDef)], .ok (.str "zero.cool")) := by
  refine ⟨?_, ?_, ?_⟩
  · rw [c1_default_required_policy noDecoders crashGetter wFReq (.int 0) rfl
      (by decide) (by decide) (by decide)]
    simp [wFReq, crashGetter, tagGet, processField, coerceSwitch, parseInt,
      parseUintCore, parseDigits, parseDigitsAux, digitVal, intBits, noDecoders]
  · rw [c1_default_required_policy noDecoders emptyGetter wFReq (.int 0) rfl
      (by decide) (by decide) (by decide)]
    simp [wFReq, emptyGetter, tagGet]
  · rw [c1_default_required_policy noDecoders emptyGetter wFDef (.str "") rfl
      (by decide) (by decide) (by decide)]
    simp [wFDef, emptyGetter, tagGet, processField, coerceSwitch, noDecoders]

/-- An anonymous (embedded) struct-kind field that itself carries a direct
tag key "k" and `required:"true"`; its own field list is empty. -/
def c3F : StructField :=
  (⟨"Inner", true, true, [("tag", "k"), ("required", "true")]⟩, .strukt [])

/-- A source under tag name "tag" with no values. -/
def tagEmptyGetter : TagValueGetter := ⟨"tag", fun _ _ => ""⟩

/-- Counterexample for C3 as stated: a tag placed directly on an embedded
struct-kind field is NOT ignored.  Processing a record whose only field is
the embedded `c3F` issues a `Get` lookup under the direct key "k" (the call
log is non-empty) and then applies the required policy to it, failing with
"required key k missing value" — whereas the claim asserts no lookup or
policy would be applied and traversal would continue without error. -/
theorem c3_counterexample :
    Process noDecoders tagEmptyGetter (.ptr (.strukt [c3F]))
        (.ptr (some (.strukt [.strukt []]))) =
      ([("k", c3F)], .error (.requiredMissing "k")) := by
  simp [Process, processFields, procStep, tagGet, isStructType, c3F, tagEmptyGetter,
    noDecoders]

/-- C3 (amended): an embedded anonymous struct-kind field is recursively
processed as a sub-record, but a tag directly on it is not ignored: after
the recursion succeeds, the lookup key of the field itself is resolved, the
`Get` lookup is issued under it, and the default/required policy applies —
in particular, with an empty resolved value, no default and
`required:"true"`, the step fails naming the key of the embedded field
(only the subsequent coercion would be a no-op for a struct kind). -/
theorem c3_embedded_tag_policy (dec : DecoderEnv) (v : TagValueGetter)
    (f : StructField) (x : GoValue) (log : List GetCall) (x1 : GoValue)
    (hanon : f.1.anonymous = true)
    (hstruct : isStructType f.2 = true)
    (hset : f.1.exported = true)
    (hig : tagGet f.1.tags "ignored" ≠ "true")
    (hrec : Process dec v (.ptr f.2) (.ptr (some x)) = (log, .ok (.ptr (some x1))))
    (hkey : tagGet f.1.tags v.tagName ≠ "")
    (hval : v.get (tagGet f.1.tags v.tagName) f = "")
    (hdef : tagGet f.1.tags "default" = "")
    (hreq : tagGet f.1.tags "required" = "true") :
    procStep dec v f x =
      (log ++ [(tagGet f.1.tags v.tagName, f)],
        .error (.requiredMissing (tagGet f.1.tags v.tagName))) := by
  have h1 : ¬ (f.1.exported = false ∨ tagGet f.1.tags "ignored" = "true") := by
    simp [hset]
    exact hig
  rw [procStep, if_neg h1, if_pos ⟨hanon, hstruct⟩, hrec]
  simp [hkey, hval, hdef, hreq]

/-- Witness for C3 (amended): the concrete embedded field of the
counterexample. -/
theorem c3_embedded_tag_policy_witness :
    procStep noDecoders tagEmptyGetter c3F (.strukt []) =
      ([("k", c3F)], .error (.requiredMissing "k")) := by
  have hrec : Process noDecoders tagEmptyGetter (.ptr c3F.2) (.ptr (some (.strukt []))) =
      ([], .ok (.ptr (some (.strukt [])))) := by
    simp [Process, processFields, c3F]
  rw [c3_embedded_tag_policy noDecoders tagEmptyGetter c3F (.strukt []) []
    (.strukt []) rfl rfl rfl (by decide) hrec (by decide) rfl (by decide) (by decide)]
  simp [c3F, tagGet, tagEmptyGetter]

/-- An exported string field annotated both with the sink/source tag key "k"
and `ignored:"true"`. -/
def c4F : StructField :=
  (⟨"Name", false, true, [("bl", "k"), ("ignored", "true")]⟩, .str)

/-- A sink under tag name "bl" that accepts every value. -/
def blSetter : TagValueSetter := ⟨"bl", fun _ _ _ => none⟩

/-- Counterexample for C4 as stated: in the outbound pipeline there is no
ignored/settability check.  For a field annotated `ignored:"true"` with a
non-empty tag key, `PopulateExternalSource` does call the sink's `Set`
(the call log contains the field), whereas the claim asserts no `Set` call
is performed for such a field in both pipelines. -/
theorem c4_counterexample :
    PopulateExternalSource blSetter (.ptr (.strukt [c4F]))
        (.ptr (some (.strukt [.str "x"]))) =
      ([("k", .str "x", c4F)], .ok ()) := by
  simp [PopulateExternalSource, populateFields, popStep, tagGet, isStructType, c4F,
    blSetter]

/-- C4 (amended): only the inbound pipeline checks settability and the
`ignored` annotation.  In `Process`, a field that is unexported or annotated
`ignored:"true"` is skipped entirely: no `Get` call and no mutation.  In
`PopulateExternalSource` no such check exists: for every non-embedded
exported field whose tag value is non-empty — ignored or not — `Set` is
called with the key, the current field content and the field metadata. -/
theorem c4_skip_only_inbound (dec : DecoderEnv) (v : TagValueGetter)
    (w : TagValueSetter) (f : StructField) (x : GoValue) :
    ((f.1.exported = false ∨ tagGet f.1.tags "ignored" = "true") →
       procStep dec v f x = ([], .ok x)) ∧
    ((f.1.anonymous = true ∧ isStructType f.2 = true → False) →
     f.1.exported = true →
     tagGet f.1.tags w.tagName ≠ "" →
       popStep w f x =
         ([(tagGet f.1.tags w.tagName, x, f)],
           match w.set (tagGet f.1.tags w.tagName) x f with
           | none => .ok ()
           | some msg => .error (.sinkError msg))) := by
  constructor
  · intro h
    rw [procStep, if_pos h]
  · intro hanon hset ht
    have hset' : ¬ f.1.exported = false := by simp [hset]
    rw [popStep, if_neg hanon, if_neg ht, if_neg hset']
    cases w.set (tagGet f.1.tags w.tagName) x f <;> rfl

/-- Witness for C4 (amended), on the ignored field `c4F` itself: `Process`
skips it entirely while `PopulateExternalSource` pushes it to the sink. -/
theorem c4_skip_only_inbound_witness :
    procStep noDecoders tagEmptyGetter c4F (.str "x") = ([], .ok (.str "x")) ∧
    popStep blSetter c4F (.str "x") = ([("k", .str "x", c4F)], .ok ()) := by
  constructor
  · exact (c4_skip_only_inbound noDecoders tagEmptyGetter blSetter c4F (.str "x")).1
      (Or.inr (by decide))
  · rw [(c4_skip_only_inbound noDecoders tagEmptyGetter blSetter c4F (.str "x")).2
      (by decide) rfl (by decide)]
    simp [c4F, blSetter, tagGet]

/-- A directly tagged scalar (bool) field under key "k". -/
def c6F : StructField := (⟨"Abides", false, true, [("tag", "k")]⟩, .boolT)

/-- Source map holding "k" = "1" under tag name "tag". -/
def oneGetter : TagValueGetter := ⟨"tag", fun k _ => if k = "k" then "1" else ""⟩

/-- An accepting sink under the same tag name "tag". -/
def tagSetter : TagValueSetter := ⟨"tag", fun _ _ _ => none⟩

/-- Counterexample for C6 as stated: round-tripping does not reproduce the
original key-to-string pairs for every directly tagged scalar field.  From
the source pair "k" = "1", `Process` stores the coerced boolean `true` in
the bool field; `PopulateExternalSource` then calls `Set` with the boxed
boolean `true` — not the original string value "1" — so the original pair
is not reproduced (a sink accepting only strings, like the one in the
package tests, would even reject the value). -/
theorem c6_counterexample :
    Process noDecoders oneGetter (.ptr (.strukt [c6F]))
        (.ptr (some (.strukt [.bool false]))) =
      ([("k", c6F)], .ok (.ptr (some (.strukt [.bool true])))) ∧
    PopulateExternalSource tagSetter (.ptr (.strukt [c6F]))
        (.ptr (some (.strukt [.bool true]))) =
      ([("k", .bool true, c6F)], .ok ()) ∧
    GoValue.bool true ≠ .str "1" := by
  refine ⟨?_, ?_, by simp⟩
  · simp [Process, processFields, procStep, processField, coerceSwitch, parseBool,
      tagGet, isStructType, c6F, oneGetter, noDecoders]
  · simp [PopulateExternalSource, populateFields, popStep, tagGet, isStructType, c6F,
      tagSetter]

/-- C6 (amended): the round-trip holds for directly tagged STRING-kind
fields: if the source returns a non-empty string `s` for the key of such a
field, the `Process` step stores exactly `s`, and the outbound step under
the same key space then calls `Set` with that key and the unmodified string
content — reproducing the original key-to-string pair.  (For non-string
scalar fields the sink receives the coerced value, not the original
string.) -/
theorem c6_roundtrip_string_fields (dec : DecoderEnv) (v : TagValueGetter)
    (w : TagValueSetter) (f : StructField) (x : GoValue) (s : String)
    (hstr : f.2 = .str)
    (hd : dec .str = none)
    (hset : f.1.exported = true)
    (hig : tagGet f.1.tags "ignored" ≠ "true")
    (hkey : tagGet f.1.tags v.tagName ≠ "")
    (hkeyw : tagGet f.1.tags w.tagName = tagGet f.1.tags v.tagName)
    (hget : v.get (tagGet f.1.tags v.tagName) f = s)
    (hs : s ≠ "") :
    procStep dec v f x = ([(tagGet f.1.tags v.tagName, f)], .ok (.str s)) ∧
    popStep w f (.str s) =
      ([(tagGet f.1.tags v.tagName, .str s, f)],
        match w.set (tagGet f.1.tags v.tagName) (.str s) f with
        | none => .ok ()
        | some msg => .error (.sinkError msg)) := by
  have h1 : ¬ (f.1.exported = false ∨ tagGet f.1.tags "ignored" = "true") := by
    simp [hset]
    exact hig
  have hanon : ¬ (f.1.anonymous = true ∧ isStructType f.2 = true) := by
    rw [hstr]
    simp [isStructType]
  have hkeyw' : tagGet f.1.tags w.tagName ≠ "" := by
    rw [hkeyw]
    exact hkey
  have hset' : ¬ f.1.exported = false := by simp [hset]
  constructor
  · rw [procStep, if_neg h1, if_neg hanon]
    have hpf : processField dec s f.2 x = ⟨false, .str s⟩ := by
      rw [hstr]
      simp only [processField, hd, coerceSwitch]
    simp [hkey, hget, hs, hpf]
  · rw [popStep, if_neg hanon, if_neg hkeyw', if_neg hset', hkeyw]
    cases w.set (tagGet f.1.tags v.tagName) (.str s) f <;> rfl

/-- A directly tagged string field mirroring `Name` of the round-trip test. -/
def c6FName : StructField := (⟨"Name", false, true, [("tag", "name")]⟩, .str)

/-- Source map holding "name" = "The dude" under tag name "tag". -/
def dudeGetter : TagValueGetter :=
  ⟨"tag", fun k _ => if k = "name" then "The dude" else ""⟩

/-- Witness for C6 (amended): the pair "name" = "The dude" survives the
round trip through the record and back to the sink. -/
theorem c6_roundtrip_string_fields_witness :
    procStep noDecoders dudeGetter c6FName (.str "") =
      ([("name", c6FName)], .ok (.str "The dude")) ∧
    popStep tagSetter c6FName (.str "The dude") =
      ([("name", .str "The dude", c6FName)], .ok ()) := by
  have h := c6_roundtrip_string_fields noDecoders dudeGetter tagSetter c6FName
    (.str "") "The dude" rfl rfl rfl (by decide) (by decide) (by decide) (by decide)
    (by decide)
  refine ⟨?_, ?_⟩
  · rw [h.1]
    simp [c6FName, tagGet, dudeGetter]
  · rw [h.2]
    simp [c6FName, tagGet, dudeGetter, tagSetter]

/-- An `int` field named "A" whose lookup key "k" differs from the name. -/
def c7F : StructField := (⟨"A", false, true, [("tag", "k")]⟩, .intT .i "" "")

/-- Source returning the unparseable value "x" for every key. -/
def badGetter : TagValueGetter := ⟨"tag", fun _ _ => "x"⟩

/-- Counterexample for C7 as stated: the conversion error does not carry the
name of the field.  For the field named "A" with lookup key "k" and raw
value "x", `Process` returns a `ParseError` whose field-name slot holds the
lookup key "k" (src/tagconfig.go line 110 stores `key`, not the struct
field name); the name "A" appears in none of the three error components. -/
theorem c7_counterexample :
    Process noDecoders badGetter (.ptr (.strukt [c7F])) (.ptr (some (.strukt [.int 0]))) =
      ([("k", c7F)], .error (.parseError "k" "int" "x")) ∧
    c7F.1.name = "A" ∧
    ("k" : String) ≠ "A" ∧ ("int" : String) ≠ "A" ∧ ("x" : String) ≠ "A" := by
  refine ⟨?_, rfl, by decide, by decide, by decide⟩
  simp [Process, processFields, procStep, processField, coerceSwitch, parseInt,
    parseUintCore, parseDigits, parseDigitsAux, digitVal, intBits, tagGet, isStructType,
    typeString, c7F, badGetter, noDecoders]

/-- C7 (amended): whenever coercion of the resolved raw value fails (and no
custom decoder handled the field), `Process` returns a conversion error
carrying the lookup key of the field (stored in the field-name slot of
`ParseError`), the string rendering of the declared field type, and the raw
string value that was attempted. -/
theorem c7_parse_error_contents (dec : DecoderEnv) (v : TagValueGetter)
    (f : StructField) (x : GoValue) (value : String)
    (hset : f.1.exported = true)
    (hig : tagGet f.1.tags "ignored" ≠ "true")
    (hanon : f.1.anonymous = true ∧ isStructType f.2 = true → False)
    (hkey : tagGet f.1.tags v.tagName ≠ "")
    (hval : (if tagGet f.1.tags "default" ≠ "" ∧ v.get (tagGet f.1.tags v.tagName) f = ""
             then tagGet f.1.tags "default"
             else v.get (tagGet f.1.tags v.tagName) f) = value)
    (hne : ¬ (value = "" ∧ tagGet f.1.tags "default" = ""))
    (herr : (processField dec value f.2 x).err = true) :
    procStep dec v f x =
      ([(tagGet f.1.tags v.tagName, f)],
        .error (.parseError (tagGet f.1.tags v.tagName) (typeString f.2) value)) := by
  have h1 : ¬ (f.1.exported = false ∨ tagGet f.1.tags "ignored" = "true") := by
    simp [hset]
    exact hig
  rw [procStep, if_neg h1, if_neg hanon]
  simp only [hkey, if_neg hkey, hval, if_neg hne, herr]
  simp [hkey, hval, hne, herr]

/-- Witness for C7 (amended): the concrete failing field of the
counterexample. -/
theorem c7_parse_error_contents_witness :
    procStep noDecoders badGetter c7F (.int 0) =
      ([("k", c7F)], .error (.parseError "k" "int" "x")) := by
  have herr : (processField noDecoders "x" c7F.2 (.int 0)).err = true := by
    simp [processField, coerceSwitch, parseInt, parseUintCore, parseDigits,
      parseDigitsAux, digitVal, intBits, c7F, noDecoders]
  rw [c7_parse_error_contents noDecoders badGetter c7F (.int 0) "x" rfl (by decide)
    (by decide) (by decide) (by decide) (by decide) herr]
  simp [c7F, tagGet, typeString, badGetter]

/-- An anonymous exported field of pointer-to-struct type tagged "m". -/
def c10F : StructField := (⟨"Meta", true, true, [("tag", "m")]⟩, .ptr (.strukt []))

/-- C10: only anonymous fields of struct kind are recursed into; an
anonymous field of pointer-to-struct kind is handled like an ordinary
field.  In `Process`, without a direct tag key the step does nothing at all
(no recursion into the pointee, no `Get`, value untouched) — the field
needs its own key to be populated.  In `PopulateExternalSource`, with a
non-empty tag value, the pointer itself is passed to the `Set` call of the
sink. -/
theorem c10_anonymous_ptr_not_recursed (dec : DecoderEnv) (v : TagValueGetter)
    (w : TagValueSetter) (f : StructField) (x : GoValue) (sfs : List StructField)
    (ht : f.2 = .ptr (.strukt sfs))
    (hanon : f.1.anonymous = true)
    (hset : f.1.exported = true)
    (hig : tagGet f.1.tags "ignored" ≠ "true") :
    (tagGet f.1.tags v.tagName = "" → procStep dec v f x = ([], .ok x)) ∧
    (tagGet f.1.tags w.tagName ≠ "" →
      popStep w f x =
        ([(tagGet f.1.tags w.tagName, x, f)],
          match w.set (tagGet f.1.tags w.tagName) x f with
          | none => .ok ()
          | some msg => .error (.sinkError msg))) := by
  have h1 : ¬ (f.1.exported = false ∨ tagGet f.1.tags "ignored" = "true") := by
    simp [hset]
    exact hig
  have hns : ¬ (f.1.anonymous = true ∧ isStructType f.2 = true) := by
    rw [ht]
    simp [isStructType]
  have hset' : ¬ f.1.exported = false := by simp [hset]
  constructor
  · intro hkey
    rw [procStep, if_neg h1, if_neg hns]
    simp [hkey]
  · intro htag
    rw [popStep, if_neg hns, if_neg htag, if_neg hset']
    cases w.set (tagGet f.1.tags w.tagName) x f <;> rfl

/-- Witness for C10: the concrete anonymous pointer-to-struct field `c10F`,
with a nil pointer value; a source with a different tag name resolves no
key, so `Process` leaves the nil pointer untouched; the sink receives the
pointer itself. -/
theorem c10_anonymous_ptr_not_recursed_witness :
    procStep noDecoders emptyGetter c10F (.ptr none) = ([], .ok (.ptr none)) ∧
    popStep tagSetter c10F (.ptr none) = ([("m", .ptr none, c10F)], .ok ()) := by
  have h := c10_anonymous_ptr_not_recursed noDecoders emptyGetter tagSetter c10F
    (.ptr none) [] rfl rfl rfl (by decide)
  refine ⟨h.1 (by decide), ?_⟩
  rw [h.2 (by decide)]
  simp [c10F, tagGet, tagSetter]
